import Mathlib

/-
Shallow embedding of src/src/task_manager_backend/src/lib.rs (an IC canister
task store).  The canister state is a `HashMap<u64, Task>` plus a `u64`
next-id counter; `u64` values are modelled as `Nat` (the only arithmetic in
the whole program is the `next_id + 1` counter increment and timestamp
comparisons, neither of which can reach `2^64` in any feasible execution, so
wrap-around is immaterial).  The `HashMap` is modelled as an association
list with the usual insert-replaces / first-match-wins semantics; the host
clock `ic_cdk::api::time()` becomes an explicit `now : Nat` argument to
every mutating operation.
-/

namespace TMS

/-- The `Task` struct of the source (lib.rs lines 7-16). -/
structure Task where
  id : Nat
  title : String
  description : String
  done : Bool
  is_important : Bool
  created_at : Nat
  updated_at : Nat
deriving Repr, DecidableEq

/-- The `TaskError` enum of the source (lib.rs lines 24-29). -/
inductive TaskError where
  | NotFound
  | InvalidInput
  | DuplicateTask
deriving Repr, DecidableEq

/-- The `From<TaskError> for String` conversion (lib.rs lines 31-39). -/
def taskErrorMessage : TaskError → String
  | TaskError.NotFound => "Task not found"
  | TaskError.InvalidInput => "Invalid input"
  | TaskError.DuplicateTask => "Duplicate task"

/-- The canister state: the `TASKS` map and the `NEXT_ID` counter
(lib.rs lines 19-22).  The `HashMap` is an association list. -/
structure Store where
  tasks : List (Nat × Task)
  nextId : Nat
deriving Repr, DecidableEq

/-- `HashMap::get` on the association list: first entry with the key. -/
def hmLookup (m : List (Nat × Task)) (k : Nat) : Option Task :=
  match m with
  | [] => none
  | kv :: rest => if kv.1 = k then some kv.2 else hmLookup rest k

/-- `HashMap::insert`: replace the entry if the key is present, else append. -/
def hmInsert (m : List (Nat × Task)) (k : Nat) (v : Task) : List (Nat × Task) :=
  match m with
  | [] => [(k, v)]
  | kv :: rest => if kv.1 = k then (k, v) :: rest else kv :: hmInsert rest k v

/-- `HashMap::remove`: drop the entry with the key, if any. -/
def hmRemove (m : List (Nat × Task)) (k : Nat) : List (Nat × Task) :=
  match m with
  | [] => []
  | kv :: rest => if kv.1 = k then rest else kv :: hmRemove rest k

/-- The empty startup state: `RefCell::default()` map, counter 0. -/
def initStore : Store := { tasks := [], nextId := 0 }

/-- `create_task` (lib.rs lines 41-67).  Validates, then allocates the id by
read-then-increment, then builds and inserts the record with both timestamps
set to `now`. -/
def create_task (s : Store) (now : Nat) (title description : String)
    (is_important : Option Bool) : Except TaskError Nat × Store :=
  if title.isEmpty || description.isEmpty then
    (Except.error TaskError.InvalidInput, s)
  else
    let id := s.nextId
    let task : Task :=
      { id := id, title := title, description := description,
        is_important := is_important.getD false, done := false,
        created_at := now, updated_at := now }
    (Except.ok id, { tasks := hmInsert s.tasks id task, nextId := id + 1 })

/-- `get_task` (lib.rs lines 69-74), a read-only query. -/
def get_task (s : Store) (id : Nat) : Except TaskError Task :=
  match hmLookup s.tasks id with
  | some task => Except.ok task
  | none => Except.error TaskError.NotFound

/-- `get_all_tasks` (lib.rs lines 76-79). -/
def get_all_tasks (s : Store) : List Task :=
  s.tasks.map Prod.snd

/-- `update_task` (lib.rs lines 81-103): each supplied optional field is
applied independently, then `updated_at` is set to `now`; absent ids give
`NotFound`. -/
def update_task (s : Store) (now : Nat) (id : Nat) (title description : Option String)
    (done is_important : Option Bool) : Except TaskError Bool × Store :=
  match hmLookup s.tasks id with
  | some task =>
    let t1 := match title with
      | some newTitle => { task with title := newTitle }
      | none => task
    let t2 := match description with
      | some newDescription => { t1 with description := newDescription }
      | none => t1
    let t3 := match done with
      | some newDone => { t2 with done := newDone }
      | none => t2
    let t4 := match is_important with
      | some newImp => { t3 with is_important := newImp }
      | none => t3
    let t5 := { t4 with updated_at := now }
    (Except.ok true, { s with tasks := hmInsert s.tasks id t5 })
  | none => (Except.error TaskError.NotFound, s)

/-- `delete_task` (lib.rs lines 105-108). -/
def delete_task (s : Store) (id : Nat) : Except TaskError Bool × Store :=
  match hmLookup s.tasks id with
  | some _ => (Except.ok true, { s with tasks := hmRemove s.tasks id })
  | none => (Except.error TaskError.NotFound, s)

/-- `search_task_by_status` (lib.rs lines 110-120). -/
def search_task_by_status (s : Store) (done : Bool) : List Task :=
  (s.tasks.filter (fun kv => kv.2.done = done)).map Prod.snd

/-- `mark_task_as_important` (lib.rs lines 122-133). -/
def mark_task_as_important (s : Store) (now : Nat) (id : Nat) :
    Except TaskError Bool × Store :=
  match hmLookup s.tasks id with
  | some task =>
    let task := { task with is_important := true, updated_at := now }
    (Except.ok true, { s with tasks := hmInsert s.tasks id task })
  | none => (Except.error TaskError.NotFound, s)

/-- `get_important_tasks` (lib.rs lines 135-145). -/
def get_important_tasks (s : Store) : List Task :=
  (s.tasks.filter (fun kv => kv.2.is_important)).map Prod.snd

/-- `get_completed_tasks` (lib.rs lines 147-157). -/
def get_completed_tasks (s : Store) : List Task :=
  (s.tasks.filter (fun kv => kv.2.done)).map Prod.snd

/-- `get_incomplete_tasks` (lib.rs lines 159-169). -/
def get_incomplete_tasks (s : Store) : List Task :=
  (s.tasks.filter (fun kv => !kv.2.done)).map Prod.snd

/-- `get_total_number_of_tasks` (lib.rs lines 171-174). -/
def get_total_number_of_tasks (s : Store) : Nat :=
  s.tasks.length

/-- `get_tasks_by_description` (lib.rs lines 176-186). -/
def get_tasks_by_description (s : Store) (description : String) : List Task :=
  (s.tasks.filter (fun kv => kv.2.description = description)).map Prod.snd

/-- `get_tasks_by_importance_status` (lib.rs lines 188-198). -/
def get_tasks_by_importance_status (s : Store) (is_important : Bool) : List Task :=
  (s.tasks.filter (fun kv => kv.2.is_important = is_important)).map Prod.snd

/-- `clear_completed_tasks` (lib.rs lines 200-205): `retain(|_, task| !task.done)`. -/
def clear_completed_tasks (s : Store) : Store :=
  { s with tasks := s.tasks.filter (fun kv => !kv.2.done) }

/-- `mark_task_as_done` (lib.rs lines 207-218). -/
def mark_task_as_done (s : Store) (now : Nat) (id : Nat) :
    Except TaskError Bool × Store :=
  match hmLookup s.tasks id with
  | some task =>
    let task := { task with done := true, updated_at := now }
    (Except.ok true, { s with tasks := hmInsert s.tasks id task })
  | none => (Except.error TaskError.NotFound, s)

/-- `reset_task_status` (lib.rs lines 220-231). -/
def reset_task_status (s : Store) (now : Nat) (id : Nat) :
    Except TaskError Bool × Store :=
  match hmLookup s.tasks id with
  | some task =>
    let task := { task with done := false, updated_at := now }
    (Except.ok true, { s with tasks := hmInsert s.tasks id task })
  | none => (Except.error TaskError.NotFound, s)

/-- `get_tasks_by_title` (lib.rs lines 233-243). -/
def get_tasks_by_title (s : Store) (title : String) : List Task :=
  (s.tasks.filter (fun kv => kv.2.title = title)).map Prod.snd

/-- `toggle_task_importance` (lib.rs lines 246-257). -/
def toggle_task_importance (s : Store) (now : Nat) (id : Nat) :
    Except TaskError Bool × Store :=
  match hmLookup s.tasks id with
  | some task =>
    let task := { task with is_important := !task.is_important, updated_at := now }
    (Except.ok true, { s with tasks := hmInsert s.tasks id task })
  | none => (Except.error TaskError.NotFound, s)

/-- `get_tasks_created_after` (lib.rs lines 259-269): strict comparison. -/
def get_tasks_created_after (s : Store) (timestamp : Nat) : List Task :=
  (s.tasks.filter (fun kv => timestamp < kv.2.created_at)).map Prod.snd

/-- `get_tasks_updated_after` (lib.rs lines 271-281): strict comparison. -/
def get_tasks_updated_after (s : Store) (timestamp : Nat) : List Task :=
  (s.tasks.filter (fun kv => timestamp < kv.2.updated_at)).map Prod.snd

/-!
Traces of mutating calls.  Each public `#[ic_cdk::update]` entry point
becomes one constructor; the host clock value observed by the call is the
`now` argument.  Read-only queries do not change the state, so they do not
appear in traces.
-/

/-- One mutating call to the canister. -/
inductive Op where
  | create (now : Nat) (title description : String) (is_important : Option Bool)
  | update (now : Nat) (id : Nat) (title description : Option String)
      (done is_important : Option Bool)
  | delete (id : Nat)
  | markImportant (now : Nat) (id : Nat)
  | markDone (now : Nat) (id : Nat)
  | resetStatus (now : Nat) (id : Nat)
  | toggleImportance (now : Nat) (id : Nat)
  | clearCompleted
deriving Repr, DecidableEq

/-- State effect of one call (the returned value is discarded). -/
def applyOp (s : Store) (op : Op) : Store :=
  match op with
  | Op.create now t d imp => (create_task s now t d imp).2
  | Op.update now id t d dn imp => (update_task s now id t d dn imp).2
  | Op.delete id => (delete_task s id).2
  | Op.markImportant now id => (mark_task_as_important s now id).2
  | Op.markDone now id => (mark_task_as_done s now id).2
  | Op.resetStatus now id => (reset_task_status s now id).2
  | Op.toggleImportance now id => (toggle_task_importance s now id).2
  | Op.clearCompleted => clear_completed_tasks s

/-- Run a trace of calls from a state. -/
def runFrom (s : Store) : List Op → Store
  | [] => s
  | op :: rest => runFrom (applyOp s op) rest

/-- Run a trace of calls from the empty startup state. -/
def runOps (ops : List Op) : Store :=
  runFrom initStore ops

/-- The id returned by a call when it is a successful `create_task`. -/
def createResult (s : Store) (op : Op) : Option Nat :=
  match op with
  | Op.create now t d imp =>
    match (create_task s now t d imp).1 with
    | Except.ok id => some id
    | Except.error _ => none
  | _ => none

/-- The ids returned by the successful `create_task` calls of a trace,
in call order. -/
def createEvents (s : Store) : List Op → List Nat
  | [] => []
  | op :: rest =>
    match createResult s op with
    | some id => id :: createEvents (applyOp s op) rest
    | none => createEvents (applyOp s op) rest

/-- The host clock value a call observes, when it observes one. -/
def opTime : Op → Option Nat
  | Op.create now _ _ _ => some now
  | Op.update now _ _ _ _ _ => some now
  | Op.delete _ => none
  | Op.markImportant now _ => some now
  | Op.markDone now _ => some now
  | Op.resetStatus now _ => some now
  | Op.toggleImportance now _ => some now
  | Op.clearCompleted => none

/-- The clock values observed along a trace never decrease and never drop
below the starting bound `t` (the host clock is monotonically
nondecreasing). -/
def timesMono (t : Nat) : List Op → Bool
  | [] => true
  | op :: rest =>
    match opTime op with
    | some u => decide (t ≤ u) && timesMono u rest
    | none => timesMono t rest

/-- A supplied optional string field is non-empty (an omitted field passes). -/
def optNonempty : Option String → Bool
  | some a => !a.isEmpty
  | none => true

/-- The call, when it is an `update_task`, supplies only non-empty strings
for the optional `title` and `description` fields. -/
def opUpdatesNonempty : Op → Bool
  | Op.update _ _ t d _ _ => optNonempty t && optNonempty d
  | _ => true

/-- Every `update_task` call of the trace supplies only non-empty strings
for the optional `title` and `description` fields. -/
def updatesNonempty : List Op → Bool
  | [] => true
  | op :: rest => opUpdatesNonempty op && updatesNonempty rest

/-- The record produced by a successful `update_task` on `task`: each
supplied field replaces the old one, omitted fields are kept, and
`updated_at` becomes `now`.  Proved below (`update_task_found`) to be
exactly what the source computes. -/
def updatedTask (task : Task) (title description : Option String)
    (done is_important : Option Bool) (now : Nat) : Task :=
  { id := task.id, title := title.getD task.title,
    description := description.getD task.description,
    done := done.getD task.done,
    is_important := is_important.getD task.is_important,
    created_at := task.created_at, updated_at := now }

/-- The record built by a successful `create_task` with counter value `nid`:
`done` is false, `is_important` defaults to false, both timestamps are `now`.
Proved below (`create_task_valid_eq`) to be exactly what the source builds. -/
def createdTask (nid : Nat) (title description : String) (imp : Option Bool)
    (now : Nat) : Task :=
  { id := nid, title := title, description := description,
    is_important := imp.getD false, done := false,
    created_at := now, updated_at := now }

/-- Structural invariant of the store: every key is below the counter, every
record's `id` field equals its key, and keys are distinct (as in a `HashMap`). -/
def StoreInv (s : Store) : Prop :=
  (∀ kv ∈ s.tasks, kv.1 < s.nextId ∧ kv.2.id = kv.1)
  ∧ (s.tasks.map Prod.fst).Nodup

/-- Timestamp invariant: every record satisfies
`created_at ≤ updated_at ≤ t` where `t` bounds the clock values seen so far. -/
def TimeInv (m : List (Nat × Task)) (t : Nat) : Prop :=
  ∀ kv ∈ m, kv.2.created_at ≤ kv.2.updated_at ∧ kv.2.updated_at ≤ t

/-- Non-emptiness invariant: every record has a non-empty title and a
non-empty description. -/
def NEInv (m : List (Nat × Task)) : Prop :=
  ∀ kv ∈ m, kv.2.title.isEmpty = false ∧ kv.2.description.isEmpty = false

/-- A trace whose second call updates the first record with an empty title
(the source `update_task` performs no validation). -/
def emptyTitleTrace : List Op :=
  [Op.create 0 "a" "b" none, Op.update 1 0 (some ("" : String)) none none none]

/-- A completed sample record (a test fixture for witnesses). -/
def sampleDone : Task :=
  { id := 0, title := "a", description := "b", done := true,
    is_important := false, created_at := 0, updated_at := 0 }

/-- An incomplete sample record (a test fixture for witnesses). -/
def samplePending : Task :=
  { id := 1, title := "c", description := "d", done := false,
    is_important := true, created_at := 1, updated_at := 2 }

/-- A sample store holding one completed and one incomplete record. -/
def sampleStore : Store :=
  { tasks := [(0, sampleDone), (1, samplePending)], nextId := 2 }

end TMS

deriving instance DecidableEq for Except

namespace TMS

/-! Lemmas about the association-list model of `HashMap`. -/

theorem hmLookup_insert_self (m : List (Nat × Task)) (k : Nat) (v : Task) :
    hmLookup (hmInsert m k v) k = some v := by
  induction m with
  | nil => simp [hmInsert, hmLookup]
  | cons kv rest ih =>
    by_cases h : kv.1 = k
    · simp [hmInsert, h, hmLookup]
    · simp [hmInsert, h, hmLookup, ih]

theorem hmLookup_insert_ne (m : List (Nat × Task)) (k j : Nat) (v : Task)
    (h : j ≠ k) : hmLookup (hmInsert m k v) j = hmLookup m j := by
  have hkj : ¬(k = j) := fun he => h he.symm
  induction m with
  | nil => simp [hmInsert, hmLookup, hkj]
  | cons kv rest ih =>
    obtain ⟨a, b⟩ := kv
    by_cases ha : a = k
    · subst ha
      simp [hmInsert, hmLookup, hkj]
    · by_cases haj : a = j <;> simp [hmInsert, ha, hmLookup, haj, h, ih]

theorem hmRemove_sublist (m : List (Nat × Task)) (k : Nat) :
    List.Sublist (hmRemove m k) m := by
  induction m with
  | nil => simp [hmRemove]
  | cons kv rest ih =>
    by_cases h : kv.1 = k
    · simp only [hmRemove, h, if_true]
      exact List.sublist_cons_self kv rest
    · simpa [hmRemove, h] using List.Sublist.cons₂ kv ih

theorem mem_hmInsert (m : List (Nat × Task)) (k : Nat) (v : Task)
    (x : Nat × Task) (h : x ∈ hmInsert m k v) : x = (k, v) ∨ x ∈ m := by
  induction m with
  | nil => simpa [hmInsert] using h
  | cons kv rest ih =>
    obtain ⟨a, b⟩ := kv
    by_cases ha : a = k
    · subst ha
      simp [hmInsert] at h
      rcases h with h | h
      · exact Or.inl (by simp [h])
      · exact Or.inr (List.mem_cons_of_mem _ h)
    · simp [hmInsert, ha] at h
      rcases h with h | h
      · exact Or.inr (by simp [h])
      · rcases ih h with h2 | h2
        · exact Or.inl h2
        · exact Or.inr (List.mem_cons_of_mem _ h2)

theorem hmLookup_mem (m : List (Nat × Task)) (k : Nat) (v : Task)
    (h : hmLookup m k = some v) : (k, v) ∈ m := by
  induction m with
  | nil => simp [hmLookup] at h
  | cons kv rest ih =>
    obtain ⟨a, b⟩ := kv
    by_cases ha : a = k
    · subst ha
      simp [hmLookup] at h
      simp [h]
    · simp [hmLookup, ha] at h
      exact List.mem_cons_of_mem _ (ih h)

theorem hmLookup_eq_none (m : List (Nat × Task)) (k : Nat)
    (h : k ∉ m.map Prod.fst) : hmLookup m k = none := by
  induction m with
  | nil => simp [hmLookup]
  | cons kv rest ih =>
    obtain ⟨a, b⟩ := kv
    simp only [List.map_cons, List.mem_cons] at h
    push_neg at h
    have ha : ¬(a = k) := fun he => h.1 he.symm
    simp [hmLookup, ha]
    exact ih h.2

theorem hmInsert_of_not_mem (m : List (Nat × Task)) (k : Nat) (v : Task)
    (h : k ∉ m.map Prod.fst) : hmInsert m k v = m ++ [(k, v)] := by
  induction m with
  | nil => simp [hmInsert]
  | cons kv rest ih =>
    obtain ⟨a, b⟩ := kv
    simp only [List.map_cons, List.mem_cons] at h
    push_neg at h
    have ha : ¬(a = k) := fun he => h.1 he.symm
    simp [hmInsert, ha]
    exact ih h.2

theorem keys_hmInsert_of_mem (m : List (Nat × Task)) (k : Nat) (v : Task)
    (h : k ∈ m.map Prod.fst) :
    (hmInsert m k v).map Prod.fst = m.map Prod.fst := by
  induction m with
  | nil => simp at h
  | cons kv rest ih =>
    obtain ⟨a, b⟩ := kv
    by_cases ha : a = k
    · subst ha
      simp [hmInsert]
    · simp only [List.map_cons, List.mem_cons] at h
      rcases h with h | h
      · exact absurd h.symm ha
      · simp [hmInsert, ha, ih h]

theorem hmLookup_remove_ne (m : List (Nat × Task)) (k j : Nat)
    (h : j ≠ k) : hmLookup (hmRemove m k) j = hmLookup m j := by
  induction m with
  | nil => simp [hmRemove]
  | cons kv rest ih =>
    obtain ⟨a, b⟩ := kv
    by_cases ha : a = k
    · subst ha
      have haj : ¬(a = j) := fun he => h he.symm
      simp [hmRemove, hmLookup, haj]
    · by_cases haj : a = j <;> simp [hmRemove, ha, hmLookup, haj, h, ih]

theorem hmLookup_remove_self (m : List (Nat × Task)) (k : Nat)
    (h : (m.map Prod.fst).Nodup) : hmLookup (hmRemove m k) k = none := by
  induction m with
  | nil => simp [hmRemove, hmLookup]
  | cons kv rest ih =>
    obtain ⟨a, b⟩ := kv
    simp only [List.map_cons, List.nodup_cons] at h
    by_cases ha : a = k
    · subst ha
      simpa [hmRemove] using hmLookup_eq_none rest a h.1
    · simp [hmRemove, ha, hmLookup, ih h.2]

theorem hmLookup_filter (m : List (Nat × Task)) (p : Nat × Task → Bool) (k : Nat)
    (h : (m.map Prod.fst).Nodup) :
    hmLookup (m.filter p) k
      = (hmLookup m k).bind (fun v => if p (k, v) then some v else none) := by
  induction m with
  | nil => simp [hmLookup]
  | cons kv rest ih =>
    obtain ⟨a, b⟩ := kv
    simp only [List.map_cons, List.nodup_cons] at h
    by_cases ha : a = k
    · subst ha
      by_cases hp : p (a, b)
      · simp [List.filter_cons, hp, hmLookup]
      · have hnone : hmLookup (rest.filter p) a = none := by
          apply hmLookup_eq_none
          intro hmem
          rcases List.mem_map.mp hmem with ⟨x, hx, hxa⟩
          exact h.1 (List.mem_map.mpr ⟨x, List.mem_of_mem_filter hx, hxa⟩)
        simp [List.filter_cons, hp, hmLookup, hnone]
    · by_cases hp : p (a, b) <;>
        simp [List.filter_cons, hp, hmLookup, ha, ih h.2]

/-! Unfolding lemmas: the exact result of each mutating operation, split on
whether the id is present and on validation. -/

theorem create_task_invalid_eq (s : Store) (now : Nat) (title description : String)
    (imp : Option Bool) (h : (title.isEmpty || description.isEmpty) = true) :
    create_task s now title description imp
      = (Except.error TaskError.InvalidInput, s) := by
  simp [create_task, h]

theorem create_task_valid_eq (s : Store) (now : Nat) (title description : String)
    (imp : Option Bool) (h : (title.isEmpty || description.isEmpty) = false) :
    create_task s now title description imp
      = (Except.ok s.nextId, { tasks := hmInsert s.tasks s.nextId (createdTask s.nextId title description imp now), nextId := s.nextId + 1 }) := by
  simp [create_task, h, createdTask]

theorem update_task_found (s : Store) (now id : Nat) (title description : Option String)
    (done is_important : Option Bool) (task : Task)
    (h : hmLookup s.tasks id = some task) :
    update_task s now id title description done is_important
      = (Except.ok true, { s with tasks := hmInsert s.tasks id (updatedTask task title description done is_important now) }) := by
  cases title <;> cases description <;> cases done <;> cases is_important <;>
    simp [update_task, h, updatedTask]

theorem update_task_not_found (s : Store) (now id : Nat) (title description : Option String)
    (done is_important : Option Bool) (h : hmLookup s.tasks id = none) :
    update_task s now id title description done is_important
      = (Except.error TaskError.NotFound, s) := by
  simp [update_task, h]

theorem delete_task_found (s : Store) (id : Nat) (task : Task)
    (h : hmLookup s.tasks id = some task) :
    delete_task s id = (Except.ok true, { s with tasks := hmRemove s.tasks id }) := by
  simp [delete_task, h]

theorem delete_task_not_found (s : Store) (id : Nat)
    (h : hmLookup s.tasks id = none) :
    delete_task s id = (Except.error TaskError.NotFound, s) := by
  simp [delete_task, h]

theorem mark_task_as_done_found (s : Store) (now id : Nat) (task : Task)
    (h : hmLookup s.tasks id = some task) :
    mark_task_as_done s now id
      = (Except.ok true, { s with tasks := hmInsert s.tasks id ({ task with done := true, updated_at := now }) }) := by
  simp [mark_task_as_done, h]

theorem mark_task_as_done_not_found (s : Store) (now id : Nat)
    (h : hmLookup s.tasks id = none) :
    mark_task_as_done s now id = (Except.error TaskError.NotFound, s) := by
  simp [mark_task_as_done, h]

theorem reset_task_status_found (s : Store) (now id : Nat) (task : Task)
    (h : hmLookup s.tasks id = some task) :
    reset_task_status s now id
      = (Except.ok true, { s with tasks := hmInsert s.tasks id ({ task with done := false, updated_at := now }) }) := by
  simp [reset_task_status, h]

theorem reset_task_status_not_found (s : Store) (now id : Nat)
    (h : hmLookup s.tasks id = none) :
    reset_task_status s now id = (Except.error TaskError.NotFound, s) := by
  simp [reset_task_status, h]

theorem mark_task_as_important_found (s : Store) (now id : Nat) (task : Task)
    (h : hmLookup s.tasks id = some task) :
    mark_task_as_important s now id
      = (Except.ok true, { s with tasks := hmInsert s.tasks id ({ task with is_important := true, updated_at := now }) }) := by
  simp [mark_task_as_important, h]

theorem mark_task_as_important_not_found (s : Store) (now id : Nat)
    (h : hmLookup s.tasks id = none) :
    mark_task_as_important s now id = (Except.error TaskError.NotFound, s) := by
  simp [mark_task_as_important, h]

theorem toggle_task_importance_found (s : Store) (now id : Nat) (task : Task)
    (h : hmLookup s.tasks id = some task) :
    toggle_task_importance s now id
      = (Except.ok true, { s with tasks := hmInsert s.tasks id ({ task with is_important := !task.is_important, updated_at := now }) }) := by
  simp [toggle_task_importance, h]

theorem toggle_task_importance_not_found (s : Store) (now id : Nat)
    (h : hmLookup s.tasks id = none) :
    toggle_task_importance s now id = (Except.error TaskError.NotFound, s) := by
  simp [toggle_task_importance, h]

theorem createResult_some (s : Store) (op : Op) (i : Nat)
    (h : createResult s op = some i) :
    i = s.nextId ∧ (applyOp s op).nextId = s.nextId + 1 := by
  cases op with
  | create now t d imp =>
    by_cases hv : (t.isEmpty || d.isEmpty) = true
    · simp [createResult, create_task_invalid_eq s now t d imp hv] at h
    · have hv2 : (t.isEmpty || d.isEmpty) = false := by simpa using hv
      simp [createResult, create_task_valid_eq s now t d imp hv2] at h
      simp [applyOp, create_task_valid_eq s now t d imp hv2, h]
  | update now id t d dn imp => simp [createResult] at h
  | delete id => simp [createResult] at h
  | markImportant now id => simp [createResult] at h
  | markDone now id => simp [createResult] at h
  | resetStatus now id => simp [createResult] at h
  | toggleImportance now id => simp [createResult] at h
  | clearCompleted => simp [createResult] at h

theorem createResult_none (s : Store) (op : Op)
    (h : createResult s op = none) : (applyOp s op).nextId = s.nextId := by
  cases op with
  | create now t d imp =>
    by_cases hv : (t.isEmpty || d.isEmpty) = true
    · simp [applyOp, create_task_invalid_eq s now t d imp hv]
    · have hv2 : (t.isEmpty || d.isEmpty) = false := by simpa using hv
      simp [createResult, create_task_valid_eq s now t d imp hv2] at h
  | update now id t d dn imp =>
    cases hl : hmLookup s.tasks id with
    | some task => simp [applyOp, update_task_found s now id t d dn imp task hl]
    | none => simp [applyOp, update_task_not_found s now id t d dn imp hl]
  | delete id =>
    cases hl : hmLookup s.tasks id with
    | some task => simp [applyOp, delete_task_found s id task hl]
    | none => simp [applyOp, delete_task_not_found s id hl]
  | markImportant now id =>
    cases hl : hmLookup s.tasks id with
    | some task => simp [applyOp, mark_task_as_important_found s now id task hl]
    | none => simp [applyOp, mark_task_as_important_not_found s now id hl]
  | markDone now id =>
    cases hl : hmLookup s.tasks id with
    | some task => simp [applyOp, mark_task_as_done_found s now id task hl]
    | none => simp [applyOp, mark_task_as_done_not_found s now id hl]
  | resetStatus now id =>
    cases hl : hmLookup s.tasks id with
    | some task => simp [applyOp, reset_task_status_found s now id task hl]
    | none => simp [applyOp, reset_task_status_not_found s now id hl]
  | toggleImportance now id =>
    cases hl : hmLookup s.tasks id with
    | some task => simp [applyOp, toggle_task_importance_found s now id task hl]
    | none => simp [applyOp, toggle_task_importance_not_found s now id hl]
  | clearCompleted => simp [applyOp, clear_completed_tasks]


/-! The structural invariant: established at startup, preserved by every
operation. -/

theorem storeInv_init : StoreInv initStore := by
  constructor
  · intro kv h
    simp [initStore] at h
  · simp [initStore]

theorem storeInv_insert_found (s : Store) (id : Nat) (task new : Task)
    (h : StoreInv s) (hl : hmLookup s.tasks id = some task)
    (hid : new.id = task.id) :
    StoreInv { s with tasks := hmInsert s.tasks id new } := by
  obtain ⟨hb, hn⟩ := h
  have hmem := hmLookup_mem s.tasks id task hl
  have hkey : id ∈ s.tasks.map Prod.fst := List.mem_map.mpr ⟨(id, task), hmem, rfl⟩
  constructor
  · intro kv hkv
    rcases mem_hmInsert s.tasks id new kv hkv with h1 | h1
    · subst h1
      refine ⟨(hb (id, task) hmem).1, ?_⟩
      rw [hid]
      exact (hb (id, task) hmem).2
    · exact hb kv h1
  · simpa [keys_hmInsert_of_mem s.tasks id new hkey] using hn

theorem storeInv_sublist (s : Store) (m : List (Nat × Task)) (h : StoreInv s)
    (hsub : List.Sublist m s.tasks) : StoreInv { s with tasks := m } := by
  obtain ⟨hb, hn⟩ := h
  constructor
  · intro kv hkv
    exact hb kv (hsub.subset hkv)
  · exact List.Nodup.sublist (hsub.map Prod.fst) hn

theorem storeInv_create (s : Store) (h : StoreInv s) (now : Nat)
    (title description : String) (imp : Option Bool) :
    StoreInv (create_task s now title description imp).2 := by
  by_cases hv : (title.isEmpty || description.isEmpty) = true
  · rw [create_task_invalid_eq s now title description imp hv]
    exact h
  · have hv2 : (title.isEmpty || description.isEmpty) = false := by simpa using hv
    rw [create_task_valid_eq s now title description imp hv2]
    obtain ⟨hb, hn⟩ := h
    have hfresh : s.nextId ∉ s.tasks.map Prod.fst := by
      intro hmem
      rcases List.mem_map.mp hmem with ⟨kv, hkv, hfst⟩
      exact absurd (hfst ▸ (hb kv hkv).1) (lt_irrefl _)
    rw [hmInsert_of_not_mem s.tasks s.nextId _ hfresh]
    constructor
    · intro kv hkv
      rcases List.mem_append.mp hkv with h1 | h1
      · exact ⟨Nat.lt_succ_of_lt (hb kv h1).1, (hb kv h1).2⟩
      · simp at h1
        subst h1
        exact ⟨Nat.lt_succ_self _, rfl⟩
    · rw [List.map_append]
      simp [List.nodup_append, hn, hfresh]

theorem storeInv_applyOp (s : Store) (op : Op) (h : StoreInv s) :
    StoreInv (applyOp s op) := by
  cases op with
  | create now t d imp =>
    simp only [applyOp]
    exact storeInv_create s h now t d imp
  | update now id t d dn imp =>
    simp only [applyOp]
    cases hl : hmLookup s.tasks id with
    | some task =>
      rw [update_task_found s now id t d dn imp task hl]
      exact storeInv_insert_found s id task _ h hl rfl
    | none =>
      rw [update_task_not_found s now id t d dn imp hl]
      exact h
  | delete id =>
    simp only [applyOp]
    cases hl : hmLookup s.tasks id with
    | some task =>
      rw [delete_task_found s id task hl]
      exact storeInv_sublist s _ h (hmRemove_sublist s.tasks id)
    | none =>
      rw [delete_task_not_found s id hl]
      exact h
  | markImportant now id =>
    simp only [applyOp]
    cases hl : hmLookup s.tasks id with
    | some task =>
      rw [mark_task_as_important_found s now id task hl]
      exact storeInv_insert_found s id task _ h hl rfl
    | none =>
      rw [mark_task_as_important_not_found s now id hl]
      exact h
  | markDone now id =>
    simp only [applyOp]
    cases hl : hmLookup s.tasks id with
    | some task =>
      rw [mark_task_as_done_found s now id task hl]
      exact storeInv_insert_found s id task _ h hl rfl
    | none =>
      rw [mark_task_as_done_not_found s now id hl]
      exact h
  | resetStatus now id =>
    simp only [applyOp]
    cases hl : hmLookup s.tasks id with
    | some task =>
      rw [reset_task_status_found s now id task hl]
      exact storeInv_insert_found s id task _ h hl rfl
    | none =>
      rw [reset_task_status_not_found s now id hl]
      exact h
  | toggleImportance now id =>
    simp only [applyOp]
    cases hl : hmLookup s.tasks id with
    | some task =>
      rw [toggle_task_importance_found s now id task hl]
      exact storeInv_insert_found s id task _ h hl rfl
    | none =>
      rw [toggle_task_importance_not_found s now id hl]
      exact h
  | clearCompleted =>
    simp only [applyOp, clear_completed_tasks]
    exact storeInv_sublist s _ h (List.filter_sublist s.tasks)

theorem storeInv_runFrom (s : Store) (ops : List Op) (h : StoreInv s) :
    StoreInv (runFrom s ops) := by
  induction ops generalizing s with
  | nil => simpa [runFrom] using h
  | cons op rest ih =>
    rw [runFrom]
    exact ih _ (storeInv_applyOp s op h)

theorem storeInv_runOps (ops : List Op) : StoreInv (runOps ops) := by
  rw [runOps]
  exact storeInv_runFrom _ _ storeInv_init

/-! The ids handed out by successful creates along any trace are consecutive
starting at the current counter value. -/

theorem createEvents_eq_range (s : Store) (ops : List Op) :
    createEvents s ops = List.range' s.nextId (createEvents s ops).length := by
  induction ops generalizing s with
  | nil => simp [createEvents]
  | cons op rest ih =>
    cases hc : createResult s op with
    | some i =>
      obtain ⟨hi, hnext⟩ := createResult_some s op i hc
      have h2 := ih (applyOp s op)
      rw [hnext] at h2
      simp only [createEvents, hc]
      rw [List.length_cons, List.range'_succ, hi]
      congr 1
    | none =>
      have hnext := createResult_none s op hc
      simp only [createEvents, hc]
      rw [← hnext]
      exact ih (applyOp s op)


/-! The timestamp invariant under a monotone host clock. -/

theorem timeInv_mono (m : List (Nat × Task)) (t u : Nat) (h : TimeInv m t)
    (htu : t ≤ u) : TimeInv m u := by
  intro kv hkv
  exact ⟨(h kv hkv).1, le_trans (h kv hkv).2 htu⟩

theorem timeInv_insert (m : List (Nat × Task)) (t : Nat) (k : Nat) (v : Task)
    (h : TimeInv m t) (hc : v.created_at ≤ v.updated_at)
    (hu : v.updated_at ≤ t) : TimeInv (hmInsert m k v) t := by
  intro kv hkv
  rcases mem_hmInsert m k v kv hkv with h1 | h1
  · subst h1
    exact ⟨hc, hu⟩
  · exact h kv h1

theorem timeInv_sublist (m m2 : List (Nat × Task)) (t : Nat) (h : TimeInv m t)
    (hsub : List.Sublist m2 m) : TimeInv m2 t :=
  fun kv hkv => h kv (hsub.subset hkv)

theorem timeInv_applyOp (s : Store) (op : Op) (t : Nat)
    (hs : TimeInv s.tasks t) (hop : ∀ w, opTime op = some w → t ≤ w) :
    TimeInv (applyOp s op).tasks ((opTime op).getD t) := by
  cases op with
  | create now ti de imp =>
    have htn : t ≤ now := hop now rfl
    simp only [applyOp, opTime, Option.getD]
    by_cases hv : (ti.isEmpty || de.isEmpty) = true
    · rw [create_task_invalid_eq s now ti de imp hv]
      exact timeInv_mono _ _ _ hs htn
    · have hv2 : (ti.isEmpty || de.isEmpty) = false := by simpa using hv
      rw [create_task_valid_eq s now ti de imp hv2]
      exact timeInv_insert _ _ _ _ (timeInv_mono _ _ _ hs htn) le_rfl le_rfl
  | update now id ti de dn imp =>
    have htn : t ≤ now := hop now rfl
    simp only [applyOp, opTime, Option.getD]
    cases hl : hmLookup s.tasks id with
    | none =>
      rw [update_task_not_found s now id ti de dn imp hl]
      exact timeInv_mono _ _ _ hs htn
    | some task =>
      rw [update_task_found s now id ti de dn imp task hl]
      have hmem := hmLookup_mem s.tasks id task hl
      have hct : task.created_at ≤ now :=
        le_trans (le_trans (hs _ hmem).1 (hs _ hmem).2) htn
      exact timeInv_insert _ _ _ _ (timeInv_mono _ _ _ hs htn) hct le_rfl
  | delete id =>
    simp only [applyOp, opTime, Option.getD]
    cases hl : hmLookup s.tasks id with
    | some task =>
      rw [delete_task_found s id task hl]
      exact timeInv_sublist _ _ _ hs (hmRemove_sublist s.tasks id)
    | none =>
      rw [delete_task_not_found s id hl]
      exact hs
  | markImportant now id =>
    have htn : t ≤ now := hop now rfl
    simp only [applyOp, opTime, Option.getD]
    cases hl : hmLookup s.tasks id with
    | none =>
      rw [mark_task_as_important_not_found s now id hl]
      exact timeInv_mono _ _ _ hs htn
    | some task =>
      rw [mark_task_as_important_found s now id task hl]
      have hmem := hmLookup_mem s.tasks id task hl
      have hct : task.created_at ≤ now :=
        le_trans (le_trans (hs _ hmem).1 (hs _ hmem).2) htn
      exact timeInv_insert _ _ _ _ (timeInv_mono _ _ _ hs htn) hct le_rfl
  | markDone now id =>
    have htn : t ≤ now := hop now rfl
    simp only [applyOp, opTime, Option.getD]
    cases hl : hmLookup s.tasks id with
    | none =>
      rw [mark_task_as_done_not_found s now id hl]
      exact timeInv_mono _ _ _ hs htn
    | some task =>
      rw [mark_task_as_done_found s now id task hl]
      have hmem := hmLookup_mem s.tasks id task hl
      have hct : task.created_at ≤ now :=
        le_trans (le_trans (hs _ hmem).1 (hs _ hmem).2) htn
      exact timeInv_insert _ _ _ _ (timeInv_mono _ _ _ hs htn) hct le_rfl
  | resetStatus now id =>
    have htn : t ≤ now := hop now rfl
    simp only [applyOp, opTime, Option.getD]
    cases hl : hmLookup s.tasks id with
    | none =>
      rw [reset_task_status_not_found s now id hl]
      exact timeInv_mono _ _ _ hs htn
    | some task =>
      rw [reset_task_status_found s now id task hl]
      have hmem := hmLookup_mem s.tasks id task hl
      have hct : task.created_at ≤ now :=
        le_trans (le_trans (hs _ hmem).1 (hs _ hmem).2) htn
      exact timeInv_insert _ _ _ _ (timeInv_mono _ _ _ hs htn) hct le_rfl
  | toggleImportance now id =>
    have htn : t ≤ now := hop now rfl
    simp only [applyOp, opTime, Option.getD]
    cases hl : hmLookup s.tasks id with
    | none =>
      rw [toggle_task_importance_not_found s now id hl]
      exact timeInv_mono _ _ _ hs htn
    | some task =>
      rw [toggle_task_importance_found s now id task hl]
      have hmem := hmLookup_mem s.tasks id task hl
      have hct : task.created_at ≤ now :=
        le_trans (le_trans (hs _ hmem).1 (hs _ hmem).2) htn
      exact timeInv_insert _ _ _ _ (timeInv_mono _ _ _ hs htn) hct le_rfl
  | clearCompleted =>
    simp only [applyOp, opTime, Option.getD, clear_completed_tasks]
    exact timeInv_sublist _ _ _ hs (List.filter_sublist s.tasks)

theorem timeInv_runFrom (s : Store) (t : Nat) (ops : List Op)
    (hs : TimeInv s.tasks t) (hm : timesMono t ops = true) :
    ∃ u, TimeInv (runFrom s ops).tasks u := by
  induction ops generalizing s t with
  | nil => exact ⟨t, by simpa [runFrom] using hs⟩
  | cons op rest ih =>
    rw [runFrom]
    cases hot : opTime op with
    | some w =>
      simp only [timesMono, hot, Bool.and_eq_true, decide_eq_true_eq] at hm
      have hstep := timeInv_applyOp s op t hs
        (by intro x hx; rw [hot] at hx; injection hx with hx; subst hx; exact hm.1)
      rw [hot] at hstep
      exact ih (applyOp s op) w (by simpa using hstep) hm.2
    | none =>
      simp only [timesMono, hot] at hm
      have hstep := timeInv_applyOp s op t hs (by intro x hx; rw [hot] at hx; simp at hx)
      rw [hot] at hstep
      exact ih (applyOp s op) t (by simpa using hstep) hm

/-! The non-emptiness invariant, under the restriction that update calls
only ever supply non-empty strings. -/

theorem neInv_insert (m : List (Nat × Task)) (k : Nat) (v : Task)
    (h : NEInv m) (hv : v.title.isEmpty = false ∧ v.description.isEmpty = false) :
    NEInv (hmInsert m k v) := by
  intro kv hkv
  rcases mem_hmInsert m k v kv hkv with h1 | h1
  · subst h1
    exact hv
  · exact h kv h1

theorem neInv_sublist (m m2 : List (Nat × Task)) (h : NEInv m)
    (hsub : List.Sublist m2 m) : NEInv m2 :=
  fun kv hkv => h kv (hsub.subset hkv)

theorem neInv_applyOp (s : Store) (op : Op) (h : NEInv s.tasks)
    (hop : opUpdatesNonempty op = true) : NEInv (applyOp s op).tasks := by
  cases op with
  | create now ti de imp =>
    simp only [applyOp]
    by_cases hv : (ti.isEmpty || de.isEmpty) = true
    · rw [create_task_invalid_eq s now ti de imp hv]
      exact h
    · have hv2 : (ti.isEmpty || de.isEmpty) = false := by simpa using hv
      have hne : ti.isEmpty = false ∧ de.isEmpty = false := by simpa using hv2
      rw [create_task_valid_eq s now ti de imp hv2]
      exact neInv_insert _ _ _ h hne
  | update now id ti de dn imp =>
    simp only [applyOp]
    cases hl : hmLookup s.tasks id with
    | none =>
      rw [update_task_not_found s now id ti de dn imp hl]
      exact h
    | some task =>
      rw [update_task_found s now id ti de dn imp task hl]
      have hold := h _ (hmLookup_mem s.tasks id task hl)
      simp only [opUpdatesNonempty, Bool.and_eq_true] at hop
      refine neInv_insert _ _ _ h ⟨?_, ?_⟩
      · cases ti with
        | some a =>
          have := hop.1
          simp [optNonempty] at this
          simpa [updatedTask] using this
        | none => simpa [updatedTask] using hold.1
      · cases de with
        | some a =>
          have := hop.2
          simp [optNonempty] at this
          simpa [updatedTask] using this
        | none => simpa [updatedTask] using hold.2
  | delete id =>
    simp only [applyOp]
    cases hl : hmLookup s.tasks id with
    | some task =>
      rw [delete_task_found s id task hl]
      exact neInv_sublist _ _ h (hmRemove_sublist s.tasks id)
    | none =>
      rw [delete_task_not_found s id hl]
      exact h
  | markImportant now id =>
    simp only [applyOp]
    cases hl : hmLookup s.tasks id with
    | none =>
      rw [mark_task_as_important_not_found s now id hl]
      exact h
    | some task =>
      rw [mark_task_as_important_found s now id task hl]
      exact neInv_insert _ _ _ h (h _ (hmLookup_mem s.tasks id task hl))
  | markDone now id =>
    simp only [applyOp]
    cases hl : hmLookup s.tasks id with
    | none =>
      rw [mark_task_as_done_not_found s now id hl]
      exact h
    | some task =>
      rw [mark_task_as_done_found s now id task hl]
      exact neInv_insert _ _ _ h (h _ (hmLookup_mem s.tasks id task hl))
  | resetStatus now id =>
    simp only [applyOp]
    cases hl : hmLookup s.tasks id with
    | none =>
      rw [reset_task_status_not_found s now id hl]
      exact h
    | some task =>
      rw [reset_task_status_found s now id task hl]
      exact neInv_insert _ _ _ h (h _ (hmLookup_mem s.tasks id task hl))
  | toggleImportance now id =>
    simp only [applyOp]
    cases hl : hmLookup s.tasks id with
    | none =>
      rw [toggle_task_importance_not_found s now id hl]
      exact h
    | some task =>
      rw [toggle_task_importance_found s now id task hl]
      exact neInv_insert _ _ _ h (h _ (hmLookup_mem s.tasks id task hl))
  | clearCompleted =>
    simp only [applyOp, clear_completed_tasks]
    exact neInv_sublist _ _ h (List.filter_sublist s.tasks)

theorem neInv_runFrom (s : Store) (ops : List Op) (hs : NEInv s.tasks)
    (hm : updatesNonempty ops = true) : NEInv (runFrom s ops).tasks := by
  induction ops generalizing s with
  | nil => simpa [runFrom] using hs
  | cons op rest ih =>
    simp only [updatesNonempty, Bool.and_eq_true] at hm
    rw [runFrom]
    exact ih _ (neInv_applyOp s op hs hm.1) hm.2


/-! The `created_at` field of a surviving record never changes. -/

theorem created_at_insert_lookup (m : List (Nat × Task)) (j id : Nat)
    (task new t1 t2 : Task)
    (hl : hmLookup m j = some task) (hnew : new.created_at = task.created_at)
    (h1 : hmLookup m id = some t1)
    (h2 : hmLookup (hmInsert m j new) id = some t2) :
    t2.created_at = t1.created_at := by
  by_cases hij : id = j
  · subst hij
    rw [h1] at hl
    injection hl with hl
    rw [hmLookup_insert_self] at h2
    injection h2 with h2
    rw [← h2, hnew, ← hl]
  · rw [hmLookup_insert_ne m j id new hij] at h2
    rw [h1] at h2
    injection h2 with h2
    rw [← h2]

theorem created_at_stable_applyOp (s : Store) (hinv : StoreInv s) (op : Op)
    (id : Nat) (t1 t2 : Task)
    (h1 : hmLookup s.tasks id = some t1)
    (h2 : hmLookup (applyOp s op).tasks id = some t2) :
    t2.created_at = t1.created_at := by
  cases op with
  | create now ti de imp =>
    simp only [applyOp] at h2
    by_cases hv : (ti.isEmpty || de.isEmpty) = true
    · rw [create_task_invalid_eq s now ti de imp hv] at h2
      rw [h1] at h2
      injection h2 with h2
      rw [← h2]
    · have hv2 : (ti.isEmpty || de.isEmpty) = false := by simpa using hv
      rw [create_task_valid_eq s now ti de imp hv2] at h2
      have hid : id ≠ s.nextId := by
        intro he
        have hlt := (hinv.1 _ (hmLookup_mem s.tasks id t1 h1)).1
        rw [he] at hlt
        exact absurd hlt (lt_irrefl _)
      rw [hmLookup_insert_ne _ _ _ _ hid] at h2
      rw [h1] at h2
      injection h2 with h2
      rw [← h2]
  | update now j ti de dn imp =>
    simp only [applyOp] at h2
    cases hl : hmLookup s.tasks j with
    | none =>
      rw [update_task_not_found s now j ti de dn imp hl] at h2
      rw [h1] at h2
      injection h2 with h2
      rw [← h2]
    | some task =>
      rw [update_task_found s now j ti de dn imp task hl] at h2
      exact created_at_insert_lookup s.tasks j id task
        (updatedTask task ti de dn imp now) t1 t2 hl rfl h1 h2
  | delete j =>
    simp only [applyOp] at h2
    cases hl : hmLookup s.tasks j with
    | none =>
      rw [delete_task_not_found s j hl] at h2
      rw [h1] at h2
      injection h2 with h2
      rw [← h2]
    | some task =>
      rw [delete_task_found s j task hl] at h2
      by_cases hij : id = j
      · subst hij
        rw [hmLookup_remove_self s.tasks id hinv.2] at h2
        exact Option.noConfusion h2
      · rw [hmLookup_remove_ne s.tasks j id hij] at h2
        rw [h1] at h2
        injection h2 with h2
        rw [← h2]
  | markImportant now j =>
    simp only [applyOp] at h2
    cases hl : hmLookup s.tasks j with
    | none =>
      rw [mark_task_as_important_not_found s now j hl] at h2
      rw [h1] at h2
      injection h2 with h2
      rw [← h2]
    | some task =>
      rw [mark_task_as_important_found s now j task hl] at h2
      exact created_at_insert_lookup s.tasks j id task
        ({ task with is_important := true, updated_at := now }) t1 t2 hl rfl h1 h2
  | markDone now j =>
    simp only [applyOp] at h2
    cases hl : hmLookup s.tasks j with
    | none =>
      rw [mark_task_as_done_not_found s now j hl] at h2
      rw [h1] at h2
      injection h2 with h2
      rw [← h2]
    | some task =>
      rw [mark_task_as_done_found s now j task hl] at h2
      exact created_at_insert_lookup s.tasks j id task
        ({ task with done := true, updated_at := now }) t1 t2 hl rfl h1 h2
  | resetStatus now j =>
    simp only [applyOp] at h2
    cases hl : hmLookup s.tasks j with
    | none =>
      rw [reset_task_status_not_found s now j hl] at h2
      rw [h1] at h2
      injection h2 with h2
      rw [← h2]
    | some task =>
      rw [reset_task_status_found s now j task hl] at h2
      exact created_at_insert_lookup s.tasks j id task
        ({ task with done := false, updated_at := now }) t1 t2 hl rfl h1 h2
  | toggleImportance now j =>
    simp only [applyOp] at h2
    cases hl : hmLookup s.tasks j with
    | none =>
      rw [toggle_task_importance_not_found s now j hl] at h2
      rw [h1] at h2
      injection h2 with h2
      rw [← h2]
    | some task =>
      rw [toggle_task_importance_found s now j task hl] at h2
      exact created_at_insert_lookup s.tasks j id task
        ({ task with is_important := !task.is_important, updated_at := now }) t1 t2 hl rfl h1 h2
  | clearCompleted =>
    simp only [applyOp, clear_completed_tasks] at h2
    rw [hmLookup_filter s.tasks _ id hinv.2, h1] at h2
    cases hd : t1.done
    · simp [hd] at h2
      rw [h2]
    · simp [hd] at h2


/-! The claims. -/

/-- C1: along any sequence of operations from the empty initial state, the
ids returned by the successful `create_task` calls are exactly
`0, 1, 2, …` in call order — strictly increasing by exactly one starting
from 0 — so an id, once assigned, is never assigned again, even after the
record holding it was removed by `delete_task` or
`clear_completed_tasks`. -/
theorem C1_create_ids_consecutive_from_zero (ops : List Op) :
    createEvents initStore ops = List.range (createEvents initStore ops).length := by
  have h := createEvents_eq_range initStore ops
  rw [List.range_eq_range']
  simpa [initStore] using h

/-- C2: `create_task` returns the `InvalidInput` error exactly when the
title or the description is empty; a failed call leaves the whole store
(mapping and counter) unchanged, so a following `create_task` behaves
exactly as if the failed call had never happened. -/
theorem C2_create_task_invalid_input (s : Store) (now now2 : Nat)
    (title description t2 d2 : String) (imp imp2 : Option Bool) :
    ((create_task s now title description imp).1
        = Except.error TaskError.InvalidInput
      ↔ (title.isEmpty || description.isEmpty) = true)
    ∧ ((title.isEmpty || description.isEmpty) = true →
        (create_task s now title description imp).2 = s)
    ∧ ((title.isEmpty || description.isEmpty) = true →
        create_task (create_task s now title description imp).2 now2 t2 d2 imp2
          = create_task s now2 t2 d2 imp2) := by
  by_cases hv : (title.isEmpty || description.isEmpty) = true
  · rw [create_task_invalid_eq s now title description imp hv]
    exact ⟨⟨fun _ => hv, fun _ => rfl⟩, fun _ => rfl, fun _ => rfl⟩
  · have hv2 : (title.isEmpty || description.isEmpty) = false := by simpa using hv
    rw [create_task_valid_eq s now title description imp hv2]
    simp [hv2]

theorem C2_witness :
    (("" : String).isEmpty || ("x" : String).isEmpty) = true
    ∧ (create_task initStore 3 ("" : String) ("x" : String) none).1
        = Except.error TaskError.InvalidInput
    ∧ (create_task initStore 3 ("" : String) ("x" : String) none).2 = initStore := by
  refine ⟨by decide, ?_, ?_⟩
  · exact (C2_create_task_invalid_input initStore 3 4 ("" : String) ("x" : String)
      ("a" : String) ("b" : String) none none).1.mpr (by decide)
  · exact (C2_create_task_invalid_input initStore 3 4 ("" : String) ("x" : String)
      ("a" : String) ("b" : String) none none).2.1 (by decide)

/-- C3 counterexample: the two-call trace `emptyTitleTrace` (a valid create
followed by `update_task` supplying an empty title) is a sequence of
operations from the empty initial state after which the store holds a
record whose title is the empty string — `update_task` performs no
validation, so the claimed invariant fails on a reachable state. -/
theorem C3_cex_reachable_empty_title :
    hmLookup (runOps emptyTitleTrace).tasks 0
      = some { id := 0, title := ("" : String), description := "b", done := false, is_important := false, created_at := 0, updated_at := 1 } := by
  decide

/-- C3 (amended): in every state reachable from the empty initial state by
a sequence of operations whose `update_task` calls only ever supply
non-empty strings for `title` and `description`, every record present in
the mapping has a non-empty title and a non-empty description.  (The
amendment is forced: the source `update_task` does not validate its
optional string arguments, see the counterexample.) -/
theorem C3_nonempty_fields_invariant (ops : List Op)
    (h : updatesNonempty ops = true) :
    ∀ kv ∈ (runOps ops).tasks,
      kv.2.title.isEmpty = false ∧ kv.2.description.isEmpty = false := by
  rw [runOps]
  refine neInv_runFrom initStore ops ?_ h
  intro kv hkv
  simp [initStore] at hkv

theorem C3_witness :
    updatesNonempty [Op.create 0 "a" "b" none] = true
    ∧ (("a" : String).isEmpty = false ∧ ("b" : String).isEmpty = false) := by
  refine ⟨by decide, ?_⟩
  exact C3_nonempty_fields_invariant [Op.create 0 "a" "b" none] (by decide)
    (0, { id := 0, title := "a", description := "b", done := false, is_important := false, created_at := 0, updated_at := 0 }) (by decide)

/-- C4: for an id present in the store, `update_task` returns true,
replaces exactly the supplied optional fields, keeps every omitted field
(including `id` and `created_at`), sets `updated_at` to the current time —
in particular a call with all four optional fields omitted still succeeds,
and the new `updated_at` is at least the old one whenever the clock has not
gone backwards — and leaves the counter and every other record unchanged.
For an absent id it fails with `NotFound` and changes nothing. -/
theorem C4_update_task_spec (s : Store) (now id : Nat)
    (title description : Option String) (done is_important : Option Bool) :
    (∀ task, hmLookup s.tasks id = some task →
      (update_task s now id title description done is_important).1 = Except.ok true
      ∧ (update_task s now id title description done is_important).2.nextId = s.nextId
      ∧ hmLookup (update_task s now id title description done is_important).2.tasks id
          = some (updatedTask task title description done is_important now)
      ∧ updatedTask task title description done is_important now
          = { id := task.id, title := title.getD task.title, description := description.getD task.description, done := done.getD task.done, is_important := is_important.getD task.is_important, created_at := task.created_at, updated_at := now }
      ∧ (∀ j, j ≠ id →
          hmLookup (update_task s now id title description done is_important).2.tasks j
            = hmLookup s.tasks j)
      ∧ (task.updated_at ≤ now →
          task.updated_at
            ≤ (updatedTask task title description done is_important now).updated_at))
    ∧ (hmLookup s.tasks id = none →
        update_task s now id title description done is_important
          = (Except.error TaskError.NotFound, s)) := by
  constructor
  · intro task h
    rw [update_task_found s now id title description done is_important task h]
    refine ⟨rfl, rfl, hmLookup_insert_self _ _ _, rfl, ?_, fun hle => hle⟩
    intro j hj
    exact hmLookup_insert_ne _ _ _ _ hj
  · intro h
    exact update_task_not_found s now id title description done is_important h

theorem C4_witness :
    hmLookup sampleStore.tasks 1 = some samplePending
    ∧ (update_task sampleStore 7 1 none none none none).1 = Except.ok true
    ∧ hmLookup (update_task sampleStore 7 1 none none none none).2.tasks 1
        = some (updatedTask samplePending none none none none 7)
    ∧ update_task sampleStore 7 5 none none none none
        = (Except.error TaskError.NotFound, sampleStore) := by
  refine ⟨by decide, ?_, ?_, ?_⟩
  · exact ((C4_update_task_spec sampleStore 7 1 none none none none).1
      samplePending (by decide)).1
  · exact ((C4_update_task_spec sampleStore 7 1 none none none none).1
      samplePending (by decide)).2.2.1
  · exact (C4_update_task_spec sampleStore 7 5 none none none none).2 (by decide)

/-- C5: `clear_completed_tasks` never fails (it is a total function with no
error result); afterwards the mapping holds exactly the records that had
`done = false`, each completely unchanged (`updated_at` included), the
counter is unchanged, and if no record was completed the whole state is
unchanged.  The distinct-keys hypothesis holds for every `HashMap`; it is
established for every reachable store by `storeInv_runOps`. -/
theorem C5_clear_completed_tasks_spec (s : Store)
    (h : (s.tasks.map Prod.fst).Nodup) :
    (clear_completed_tasks s).nextId = s.nextId
    ∧ (∀ id, hmLookup (clear_completed_tasks s).tasks id
        = (hmLookup s.tasks id).bind
            (fun task => if task.done then none else some task))
    ∧ ((∀ kv ∈ s.tasks, kv.2.done = false) → clear_completed_tasks s = s) := by
  refine ⟨rfl, ?_, ?_⟩
  · intro id
    simp only [clear_completed_tasks]
    rw [hmLookup_filter s.tasks (fun kv => !kv.2.done) id h]
    cases hmLookup s.tasks id with
    | none => rfl
    | some task => cases htask : task.done <;> simp [htask]
  · intro hall
    simp only [clear_completed_tasks]
    have heq : s.tasks.filter (fun kv => !kv.2.done) = s.tasks :=
      List.filter_eq_self.mpr (fun kv hkv => by simp [hall kv hkv])
    rw [heq]

theorem C5_witness :
    (sampleStore.tasks.map Prod.fst).Nodup
    ∧ (clear_completed_tasks sampleStore).nextId = sampleStore.nextId
    ∧ hmLookup (clear_completed_tasks sampleStore).tasks 0
        = (hmLookup sampleStore.tasks 0).bind
            (fun task => if task.done then none else some task) := by
  refine ⟨by decide, ?_, ?_⟩
  · exact (C5_clear_completed_tasks_spec sampleStore (by decide)).1
  · exact (C5_clear_completed_tasks_spec sampleStore (by decide)).2.1 0


theorem except_error_eq (α : Type) (e1 e2 : TaskError)
    (h : (Except.error e1 : Except TaskError α) = Except.error e2) : e2 = e1 := by
  injection h with h
  exact h.symm

theorem except_ok_ne_error (α : Type) (x : α) (e : TaskError)
    (h : (Except.ok x : Except TaskError α) = Except.error e) : False :=
  Except.noConfusion h

/-- C6: for an id present in the store, each of `mark_task_as_done`,
`reset_task_status` and `mark_task_as_important` returns true, sets exactly
its one boolean field (`done := true`, `done := false`,
`is_important := true` respectively) together with `updated_at := now`,
and leaves every other field of the record, every other record, and the
counter unchanged; an immediate second call of the same operation changes
no field except `updated_at`.  For an absent id all three fail with
`NotFound` and leave the store unchanged. -/
theorem C6_single_field_ops_spec (s : Store) (now now2 id : Nat) :
    (∀ task, hmLookup s.tasks id = some task →
      ((mark_task_as_done s now id).1 = Except.ok true
        ∧ (mark_task_as_done s now id).2.nextId = s.nextId
        ∧ hmLookup (mark_task_as_done s now id).2.tasks id
            = some ({ task with done := true, updated_at := now })
        ∧ (∀ j, j ≠ id →
            hmLookup (mark_task_as_done s now id).2.tasks j = hmLookup s.tasks j)
        ∧ hmLookup (mark_task_as_done (mark_task_as_done s now id).2 now2 id).2.tasks id
            = some ({ task with done := true, updated_at := now2 }))
      ∧ ((reset_task_status s now id).1 = Except.ok true
        ∧ (reset_task_status s now id).2.nextId = s.nextId
        ∧ hmLookup (reset_task_status s now id).2.tasks id
            = some ({ task with done := false, updated_at := now })
        ∧ (∀ j, j ≠ id →
            hmLookup (reset_task_status s now id).2.tasks j = hmLookup s.tasks j)
        ∧ hmLookup (reset_task_status (reset_task_status s now id).2 now2 id).2.tasks id
            = some ({ task with done := false, updated_at := now2 }))
      ∧ ((mark_task_as_important s now id).1 = Except.ok true
        ∧ (mark_task_as_important s now id).2.nextId = s.nextId
        ∧ hmLookup (mark_task_as_important s now id).2.tasks id
            = some ({ task with is_important := true, updated_at := now })
        ∧ (∀ j, j ≠ id →
            hmLookup (mark_task_as_important s now id).2.tasks j = hmLookup s.tasks j)
        ∧ hmLookup (mark_task_as_important (mark_task_as_important s now id).2 now2 id).2.tasks id
            = some ({ task with is_important := true, updated_at := now2 })))
    ∧ (hmLookup s.tasks id = none →
        mark_task_as_done s now id = (Except.error TaskError.NotFound, s)
        ∧ reset_task_status s now id = (Except.error TaskError.NotFound, s)
        ∧ mark_task_as_important s now id = (Except.error TaskError.NotFound, s)) := by
  constructor
  · intro task h
    refine ⟨?_, ?_, ?_⟩
    · rw [mark_task_as_done_found s now id task h]
      refine ⟨rfl, rfl, hmLookup_insert_self _ _ _, ?_, ?_⟩
      · intro j hj
        exact hmLookup_insert_ne _ _ _ _ hj
      · rw [mark_task_as_done_found _ now2 id ({ task with done := true, updated_at := now }) (hmLookup_insert_self _ _ _)]
        exact hmLookup_insert_self _ _ _
    · rw [reset_task_status_found s now id task h]
      refine ⟨rfl, rfl, hmLookup_insert_self _ _ _, ?_, ?_⟩
      · intro j hj
        exact hmLookup_insert_ne _ _ _ _ hj
      · rw [reset_task_status_found _ now2 id ({ task with done := false, updated_at := now }) (hmLookup_insert_self _ _ _)]
        exact hmLookup_insert_self _ _ _
    · rw [mark_task_as_important_found s now id task h]
      refine ⟨rfl, rfl, hmLookup_insert_self _ _ _, ?_, ?_⟩
      · intro j hj
        exact hmLookup_insert_ne _ _ _ _ hj
      · rw [mark_task_as_important_found _ now2 id ({ task with is_important := true, updated_at := now }) (hmLookup_insert_self _ _ _)]
        exact hmLookup_insert_self _ _ _
  · intro h
    exact ⟨mark_task_as_done_not_found s now id h,
      reset_task_status_not_found s now id h,
      mark_task_as_important_not_found s now id h⟩

theorem C6_witness :
    hmLookup sampleStore.tasks 1 = some samplePending
    ∧ (mark_task_as_done sampleStore 7 1).1 = Except.ok true
    ∧ hmLookup (mark_task_as_done sampleStore 7 1).2.tasks 1
        = some ({ samplePending with done := true, updated_at := 7 })
    ∧ mark_task_as_done sampleStore 7 5 = (Except.error TaskError.NotFound, sampleStore) := by
  refine ⟨by decide, ?_, ?_, ?_⟩
  · exact (((C6_single_field_ops_spec sampleStore 7 8 1).1 samplePending (by decide)).1).1
  · exact (((C6_single_field_ops_spec sampleStore 7 8 1).1 samplePending (by decide)).1).2.2.1
  · exact ((C6_single_field_ops_spec sampleStore 7 8 5).2 (by decide)).1

/-- C7: for an id present in the store, two back-to-back
`toggle_task_importance` calls return the record to its original
`is_important` value, with `updated_at` refreshed by each call (first to
`now1`, then to `now2`); every other field is untouched. -/
theorem C7_toggle_twice (s : Store) (now1 now2 id : Nat) (task : Task)
    (h : hmLookup s.tasks id = some task) :
    hmLookup (toggle_task_importance s now1 id).2.tasks id
      = some ({ task with is_important := !task.is_important, updated_at := now1 })
    ∧ hmLookup (toggle_task_importance (toggle_task_importance s now1 id).2 now2 id).2.tasks id
      = some ({ task with updated_at := now2 }) := by
  obtain ⟨tid, ttitle, tdesc, tdone, timp, tc, tu⟩ := task
  rw [toggle_task_importance_found s now1 id _ h]
  refine ⟨hmLookup_insert_self _ _ _, ?_⟩
  rw [toggle_task_importance_found _ now2 id _ (hmLookup_insert_self _ _ _)]
  cases timp <;> exact hmLookup_insert_self _ _ _

theorem C7_witness :
    hmLookup sampleStore.tasks 1 = some samplePending
    ∧ hmLookup (toggle_task_importance sampleStore 7 1).2.tasks 1
        = some ({ samplePending with is_important := !samplePending.is_important, updated_at := 7 })
    ∧ hmLookup (toggle_task_importance (toggle_task_importance sampleStore 7 1).2 9 1).2.tasks 1
        = some ({ samplePending with updated_at := 9 }) := by
  refine ⟨by decide, ?_, ?_⟩
  · exact (C7_toggle_twice sampleStore 7 9 1 samplePending (by decide)).1
  · exact (C7_toggle_twice sampleStore 7 9 1 samplePending (by decide)).2

/-- C8: assuming the host clock is monotonically nondecreasing across the
trace, every record of the reached state satisfies
`created_at ≤ updated_at`; moreover `created_at` never changes after
creation: whatever single operation is applied next to a reachable state,
any record still present under the same id keeps its `created_at`. -/
theorem C8_timestamps (ops : List Op) (op : Op) (id : Nat) (t1 t2 : Task) :
    (timesMono 0 ops = true →
      ∀ kv ∈ (runOps ops).tasks, kv.2.created_at ≤ kv.2.updated_at)
    ∧ (hmLookup (runOps ops).tasks id = some t1 →
        hmLookup (applyOp (runOps ops) op).tasks id = some t2 →
        t2.created_at = t1.created_at) := by
  constructor
  · intro hm kv hkv
    have h0 : TimeInv initStore.tasks 0 := by
      intro kv2 hkv2
      simp [initStore] at hkv2
    obtain ⟨u, hu⟩ := timeInv_runFrom initStore 0 ops h0 hm
    exact (hu kv (by simpa [runOps] using hkv)).1
  · intro h1 h2
    exact created_at_stable_applyOp (runOps ops) (storeInv_runOps ops) op id t1 t2 h1 h2

theorem C8_witness :
    timesMono 0 [Op.create 2 "a" "b" none] = true
    ∧ (createdTask 0 "a" "b" none 2).created_at ≤ (createdTask 0 "a" "b" none 2).updated_at
    ∧ ({ createdTask 0 "a" "b" none 2 with done := true, updated_at := 3 }).created_at
        = (createdTask 0 "a" "b" none 2).created_at := by
  refine ⟨by decide, ?_, ?_⟩
  · exact (C8_timestamps [Op.create 2 "a" "b" none] Op.clearCompleted 0
      (createdTask 0 "a" "b" none 2) (createdTask 0 "a" "b" none 2)).1 (by decide)
      (0, createdTask 0 "a" "b" none 2) (by decide)
  · exact (C8_timestamps [Op.create 2 "a" "b" none] (Op.markDone 3 0) 0
      (createdTask 0 "a" "b" none 2)
      ({ createdTask 0 "a" "b" none 2 with done := true, updated_at := 3 })).2
      (by decide) (by decide)

/-- C9: no operation of the store ever returns the `DuplicateTask` error:
for any input and any state, every error a fallible operation returns is
`NotFound` or `InvalidInput` (`create_task` can only produce
`InvalidInput`; `get_task`, `update_task`, `delete_task` and the four
flag operations can only produce `NotFound`; the queries and
`clear_completed_tasks` have no error result at all). -/
theorem C9_no_duplicate_error (s : Store) (now id : Nat)
    (ti de : String) (ot od : Option String) (ob oi imp : Option Bool)
    (e : TaskError) :
    ((create_task s now ti de imp).1 = Except.error e → e = TaskError.InvalidInput)
    ∧ (get_task s id = Except.error e → e = TaskError.NotFound)
    ∧ ((update_task s now id ot od ob oi).1 = Except.error e → e = TaskError.NotFound)
    ∧ ((delete_task s id).1 = Except.error e → e = TaskError.NotFound)
    ∧ ((mark_task_as_important s now id).1 = Except.error e → e = TaskError.NotFound)
    ∧ ((mark_task_as_done s now id).1 = Except.error e → e = TaskError.NotFound)
    ∧ ((reset_task_status s now id).1 = Except.error e → e = TaskError.NotFound)
    ∧ ((toggle_task_importance s now id).1 = Except.error e → e = TaskError.NotFound) := by
  refine ⟨?_, ?_, ?_, ?_, ?_, ?_, ?_, ?_⟩
  · intro h
    by_cases hv : (ti.isEmpty || de.isEmpty) = true
    · rw [create_task_invalid_eq s now ti de imp hv] at h
      exact except_error_eq Nat TaskError.InvalidInput e h
    · have hv2 : (ti.isEmpty || de.isEmpty) = false := by simpa using hv
      rw [create_task_valid_eq s now ti de imp hv2] at h
      exact (except_ok_ne_error Nat s.nextId e h).elim
  · intro h
    cases hl : hmLookup s.tasks id with
    | some task =>
      have hg : get_task s id = Except.ok task := by simp [get_task, hl]
      rw [hg] at h
      exact (except_ok_ne_error Task task e h).elim
    | none =>
      have hg : get_task s id = Except.error TaskError.NotFound := by simp [get_task, hl]
      rw [hg] at h
      exact except_error_eq Task TaskError.NotFound e h
  · intro h
    cases hl : hmLookup s.tasks id with
    | some task =>
      rw [update_task_found s now id ot od ob oi task hl] at h
      exact (except_ok_ne_error Bool true e h).elim
    | none =>
      rw [update_task_not_found s now id ot od ob oi hl] at h
      exact except_error_eq Bool TaskError.NotFound e h
  · intro h
    cases hl : hmLookup s.tasks id with
    | some task =>
      rw [delete_task_found s id task hl] at h
      exact (except_ok_ne_error Bool true e h).elim
    | none =>
      rw [delete_task_not_found s id hl] at h
      exact except_error_eq Bool TaskError.NotFound e h
  · intro h
    cases hl : hmLookup s.tasks id with
    | some task =>
      rw [mark_task_as_important_found s now id task hl] at h
      exact (except_ok_ne_error Bool true e h).elim
    | none =>
      rw [mark_task_as_important_not_found s now id hl] at h
      exact except_error_eq Bool TaskError.NotFound e h
  · intro h
    cases hl : hmLookup s.tasks id with
    | some task =>
      rw [mark_task_as_done_found s now id task hl] at h
      exact (except_ok_ne_error Bool true e h).elim
    | none =>
      rw [mark_task_as_done_not_found s now id hl] at h
      exact except_error_eq Bool TaskError.NotFound e h
  · intro h
    cases hl : hmLookup s.tasks id with
    | some task =>
      rw [reset_task_status_found s now id task hl] at h
      exact (except_ok_ne_error Bool true e h).elim
    | none =>
      rw [reset_task_status_not_found s now id hl] at h
      exact except_error_eq Bool TaskError.NotFound e h
  · intro h
    cases hl : hmLookup s.tasks id with
    | some task =>
      rw [toggle_task_importance_found s now id task hl] at h
      exact (except_ok_ne_error Bool true e h).elim
    | none =>
      rw [toggle_task_importance_not_found s now id hl] at h
      exact except_error_eq Bool TaskError.NotFound e h

theorem C9_witness :
    get_task initStore 0 = Except.error TaskError.NotFound
    ∧ TaskError.NotFound = TaskError.NotFound := by
  refine ⟨by decide, ?_⟩
  exact (C9_no_duplicate_error initStore 0 0 "a" "b" none none none none none
    TaskError.NotFound).2.1 (by decide)

/-- C10: in every state reachable from the empty initial state, every key
of the task mapping is strictly below the next-id counter and every stored
record's `id` field equals its key; consequently the counter value is never
an existing key, so the insert performed by `create_task` always uses a
fresh key and never overwrites an existing record. -/
theorem C10_keys_below_counter (ops : List Op) :
    (∀ kv ∈ (runOps ops).tasks,
      kv.1 < (runOps ops).nextId ∧ kv.2.id = kv.1)
    ∧ hmLookup (runOps ops).tasks (runOps ops).nextId = none := by
  have hinv := storeInv_runOps ops
  refine ⟨hinv.1, ?_⟩
  apply hmLookup_eq_none
  intro hmem
  rcases List.mem_map.mp hmem with ⟨kv, hkv, hfst⟩
  exact absurd (hfst ▸ (hinv.1 kv hkv).1) (lt_irrefl _)

theorem C10_witness :
    ((0, createdTask 0 "a" "b" none 5) ∈ (runOps [Op.create 5 "a" "b" none]).tasks)
    ∧ 0 < (runOps [Op.create 5 "a" "b" none]).nextId
    ∧ hmLookup (runOps [Op.create 5 "a" "b" none]).tasks
        (runOps [Op.create 5 "a" "b" none]).nextId = none := by
  refine ⟨by decide, ?_, ?_⟩
  · exact ((C10_keys_below_counter [Op.create 5 "a" "b" none]).1
      (0, createdTask 0 "a" "b" none 5) (by decide)).1
  · exact (C10_keys_below_counter [Op.create 5 "a" "b" none]).2

end TMS
